import Mathlib

/-
Verification of the Notion-to-Google-Calendar sync script
(src/notion_google_sync.py) against its natural-language specification.

The script is embedded shallowly:

  - PyVal models the JSON-like Python values the Notion client returns
    (dicts with string keys, lists, strings, None).  Dictionary access via
    the Python dict.get method, Python truthiness and the Python equality
    test against a string literal are modelled by PyVal.getD, PyVal.truthy
    and PyVal.isStr.  The source only ever calls .get on dict-shaped values
    coming from the Notion API; on a value of a different shape the source
    would raise an uncaught AttributeError, while the model returns the
    given default.  All claims are settled on well-shaped property bags,
    where the two coincide.
  - PyDateTime models a naive datetime.datetime value, and fromisoformat
    models datetime.fromisoformat for the two shapes the script feeds it:
    YYYY-MM-DD and YYYY-MM-DDTHH:MM:SS (Notion date values, plus the
    T00:00:00 and T23:59:59 suffixes the script appends).  Fractional
    seconds and UTC offsets are outside the model and parse as failures,
    matching a strict fromisoformat on malformed text.
  - The remote collaborators (Notion client, Calendar client) are an
    oracle structure SyncEnv whose calls return Except values; an error
    models a raised exception.  The driver returns the list of remote
    calls it attempted (the trace) together with the list of error
    messages it printed, mirroring the try/except blocks of the source.
-/

namespace NotionSync

/-- A JSON-like Python value as handled by the script: None, a string, a
list, or a dict with string keys. -/
inductive PyVal where
  | none
  | str (s : String)
  | list (items : List PyVal)
  | dict (entries : List (String × PyVal))

/-- Python truthiness of a PyVal: None is falsy, strings, lists and dicts
are falsy exactly when empty. -/
def PyVal.truthy : PyVal → Bool
  | .none => false
  | .str s => s != ""
  | .list xs => !xs.isEmpty
  | .dict es => !es.isEmpty

/-- Python dict.get with a default.  On a non-dict value the source would
raise; the model returns the default (see the header comment). -/
def PyVal.getD : PyVal → String → PyVal → PyVal
  | .dict es, k, d =>
    match es.lookup k with
    | some v => v
    | Option.none => d
  | _, _, d => d

/-- The Python test v == "lit" for a string literal: true exactly when v
is that string. -/
def PyVal.isStr : PyVal → String → Bool
  | .str s, t => s == t
  | _, _ => false

/-- The Python test v is None. -/
def PyVal.isNone : PyVal → Bool
  | .none => true
  | _ => false

/-- The string content of a PyVal, for positions where the source requires
a str (joining rich-text parts).  On non-string content the source would
raise a TypeError; the model yields the empty string. -/
def PyVal.asStr : PyVal → String
  | .str s => s
  | _ => ""

/-- Python str() as used in the f-string building the event description
and when a value is passed where text is rendered.  Only string values
occur there in well-shaped data. -/
def PyVal.pyToStr : PyVal → String
  | .str s => s
  | .none => "None"
  | .list _ => "<list>"
  | .dict _ => "<dict>"

/-- The list items of a PyVal; a non-list yields the empty list. -/
def PyVal.asList : PyVal → List PyVal
  | .list xs => xs
  | _ => []

/-- Python or between two values: the first if truthy, else the second. -/
def pyOr (a b : PyVal) : PyVal := if a.truthy then a else b

/-- Concatenation of the plain_text fields of a list of rich-text parts,
as in the source expression joining part.get("plain_text", "") over the
parts. -/
def plainTextsJoined : PyVal → String
  | .list parts => String.join (parts.map fun p => (p.getD "plain_text" (PyVal.str "")).asStr)
  | _ => ""

/-- A naive datetime.datetime value (microseconds are always zero in the
inputs the script builds). -/
structure PyDateTime where
  year : Nat
  month : Nat
  day : Nat
  hour : Nat
  minute : Nat
  second : Nat
deriving DecidableEq

/-- Gregorian leap-year rule, as datetime implements it. -/
def isLeap (y : Nat) : Bool := (y % 4 == 0 && y % 100 != 0) || y % 400 == 0

/-- Number of days of a month (1 to 12); 0 for an out-of-range month so
that date validation rejects it. -/
def daysInMonth (leap : Bool) : Nat → Nat
  | 1 => 31
  | 2 => if leap then 29 else 28
  | 3 => 31
  | 4 => 30
  | 5 => 31
  | 6 => 30
  | 7 => 31
  | 8 => 31
  | 9 => 30
  | 10 => 31
  | 11 => 30
  | 12 => 31
  | _ => 0

/-- Days in the months strictly before month m of a year. -/
def daysBeforeMonth (leap : Bool) : Nat → Nat
  | 0 => 0
  | m + 1 => daysBeforeMonth leap m + daysInMonth leap m

/-- Number of days of a year. -/
def daysInYear (y : Nat) : Nat := if isLeap y then 366 else 365

/-- Days in the years strictly before year y (year 0 as epoch). -/
def daysBeforeYear : Nat → Nat
  | 0 => 0
  | y + 1 => daysBeforeYear y + daysInYear y

/-- Seconds since the epoch of a naive datetime; the absolute timeline the
interval claims are measured on. -/
def PyDateTime.toSecs (dt : PyDateTime) : Nat :=
  (daysBeforeYear dt.year + daysBeforeMonth (isLeap dt.year) dt.month + (dt.day - 1)) * 86400
    + dt.hour * 3600 + dt.minute * 60 + dt.second

/-- The calendar date is in range: month 1 to 12, day within the month. -/
def PyDateTime.Valid (dt : PyDateTime) : Prop :=
  1 ≤ dt.month ∧ dt.month ≤ 12 ∧ 1 ≤ dt.day ∧ dt.day ≤ daysInMonth (isLeap dt.year) dt.month

/-- Adding datetime.timedelta(days=1) to a naive datetime: the next
calendar day, same time of day. -/
def PyDateTime.addOneDay (dt : PyDateTime) : PyDateTime :=
  if dt.day < daysInMonth (isLeap dt.year) dt.month then
    { dt with day := dt.day + 1 }
  else if dt.month < 12 then
    { dt with month := dt.month + 1, day := 1 }
  else
    { year := dt.year + 1, month := 1, day := 1,
      hour := dt.hour, minute := dt.minute, second := dt.second }

/-- Two-digit zero padding. -/
def pad2 (n : Nat) : String := if n < 10 then "0" ++ toString n else toString n

/-- Four-digit zero padding. -/
def pad4 (n : Nat) : String :=
  if n < 10 then "000" ++ toString n
  else if n < 100 then "00" ++ toString n
  else if n < 1000 then "0" ++ toString n
  else toString n

/-- datetime.isoformat() of a naive datetime with zero microseconds. -/
def PyDateTime.isoformat (dt : PyDateTime) : String :=
  pad4 dt.year ++ "-" ++ pad2 dt.month ++ "-" ++ pad2 dt.day ++ "T"
    ++ pad2 dt.hour ++ ":" ++ pad2 dt.minute ++ ":" ++ pad2 dt.second

/-- Split of a character list at every occurrence of a character;
auxiliary accumulator form. -/
def splitOnAux (c : Char) : List Char → List Char → List (List Char)
  | [], acc => [acc.reverse]
  | x :: xs, acc =>
    if x = c then acc.reverse :: splitOnAux c xs []
    else splitOnAux c xs (x :: acc)

/-- Split of a character list at every occurrence of a character. -/
def splitOnChar (c : Char) (l : List Char) : List (List Char) := splitOnAux c l []

/-- Numeric value of a decimal digit character. -/
def digitVal (c : Char) : Nat := c.toNat - Char.toNat '0'

/-- A fixed-width run of decimal digits, as fromisoformat requires for
each date and time field. -/
def parseFixed (n : Nat) (l : List Char) : Option Nat :=
  if l.length = n && l.all Char.isDigit then
    some (l.foldl (fun acc c => acc * 10 + digitVal c) 0)
  else Option.none

/-- The date part YYYY-MM-DD with range validation, as fromisoformat
performs it. -/
def parseDatePart (l : List Char) : Option (Nat × Nat × Nat) :=
  match splitOnChar '-' l with
  | [ys, ms, ds] =>
    match parseFixed 4 ys, parseFixed 2 ms, parseFixed 2 ds with
    | some y, some m, some d =>
      if 1 ≤ m && m ≤ 12 && 1 ≤ d && d ≤ daysInMonth (isLeap y) m then some (y, m, d)
      else Option.none
    | _, _, _ => Option.none
  | _ => Option.none

/-- The time part HH:MM:SS with range validation. -/
def parseTimePart (l : List Char) : Option (Nat × Nat × Nat) :=
  match splitOnChar ':' l with
  | [hs, ms, ss] =>
    match parseFixed 2 hs, parseFixed 2 ms, parseFixed 2 ss with
    | some h, some m, some s =>
      if h ≤ 23 && m ≤ 59 && s ≤ 59 then some (h, m, s) else Option.none
    | _, _, _ => Option.none
  | _ => Option.none

/-- datetime.fromisoformat on a character list: a date alone parses to
midnight, a date and a time separated by T parse to that instant;
anything else is a ValueError (modelled as Option.none). -/
def fromisoChars (l : List Char) : Option PyDateTime :=
  match splitOnChar 'T' l with
  | [d] =>
    (parseDatePart d).map fun ymd => ⟨ymd.1, ymd.2.1, ymd.2.2, 0, 0, 0⟩
  | [d, t] =>
    (parseDatePart d).bind fun ymd =>
      (parseTimePart t).map fun hms => ⟨ymd.1, ymd.2.1, ymd.2.2, hms.1, hms.2.1, hms.2.2⟩
  | _ => Option.none

/-- datetime.fromisoformat on a string. -/
def fromisoformat (s : String) : Option PyDateTime := fromisoChars s.data

/-- The Python membership test of a character in a string, as in the
source expression testing whether T occurs in the date string. -/
def strContains (s : String) (c : Char) : Bool := decide (c ∈ s.data)

/-- The start branch of _parse_notion_date: parse as given when a time
component is present, else parse with midnight appended. -/
def startParse (s : String) : Option PyDateTime :=
  if strContains s 'T' then fromisoformat s
  else fromisoformat (s ++ "T00:00:00")

/-- The end branch of _parse_notion_date: parse as given when a time
component is present, else parse with end-of-day 23:59:59 appended. -/
def endParse (s : String) : Option PyDateTime :=
  if strContains s 'T' then fromisoformat s
  else fromisoformat (s ++ "T23:59:59")

/-- The extracted task view: the result dict of _get_task_properties.  A
key the source leaves unset and a key set to Python None are both read
back as None by the driver, so both are PyVal.none here. -/
structure TaskProps where
  name : String
  due : PyVal
  status : PyVal
  domain_id : PyVal
  gcal_id : PyVal

/-- Line-by-line embedding of _get_task_properties (source lines 95-133):
name from a title-typed Name-or-Title property, due from the first truthy
due-date alias when date-typed and populated, status from a select or
status typed Status property, domain_id from the first relation entry of
a relation-typed Domain property, gcal_id from a rich-text-typed id
property. -/
def _get_task_properties (page : PyVal) : TaskProps :=
  let props := page.getD "properties" (PyVal.dict [])
  let title_prop := pyOr (props.getD "Name" PyVal.none) (props.getD "Title" PyVal.none)
  let name :=
    if title_prop.truthy && (title_prop.getD "type" PyVal.none).isStr "title" then
      plainTextsJoined (title_prop.getD "title" (PyVal.list []))
    else "Untitled"
  let due_prop :=
    pyOr (pyOr (props.getD "Due Date" PyVal.none) (props.getD "Due date" PyVal.none))
      (props.getD "Due" PyVal.none)
  let due :=
    if due_prop.truthy && (due_prop.getD "type" PyVal.none).isStr "date"
        && (due_prop.getD "date" PyVal.none).truthy then
      due_prop.getD "date" PyVal.none
    else PyVal.none
  let status_prop := props.getD "Status" PyVal.none
  let status :=
    if status_prop.truthy
        && ((status_prop.getD "type" PyVal.none).isStr "select"
            || (status_prop.getD "type" PyVal.none).isStr "status") then
      (status_prop.getD (status_prop.getD "type" PyVal.none).asStr (PyVal.dict [])).getD
        "name" PyVal.none
    else PyVal.none
  let domain_prop := props.getD "Domain" PyVal.none
  let domain_id :=
    if domain_prop.truthy && (domain_prop.getD "type" PyVal.none).isStr "relation" then
      match domain_prop.getD "relation" (PyVal.list []) with
      | PyVal.list (r :: _) => r.getD "id" PyVal.none
      | _ => PyVal.none
    else PyVal.none
  let gcal_prop :=
    pyOr (props.getD "GCal Event ID" PyVal.none)
      (props.getD "Google Calendar Event ID" PyVal.none)
  let gcal_id :=
    if gcal_prop.truthy && (gcal_prop.getD "type" PyVal.none).isStr "rich_text" then
      PyVal.str (plainTextsJoined (gcal_prop.getD "rich_text" (PyVal.list [])))
    else PyVal.none
  { name := name, due := due, status := status, domain_id := domain_id, gcal_id := gcal_id }

/-- Line-by-line embedding of _parse_notion_date (source lines 136-161).
The tz argument is accepted and, as in the source body, never used.  A
missing start raises ValueError, a non-string start or end raises
TypeError on the membership test, a parse failure raises ValueError; all
are Except.error. -/
def _parse_notion_date (date_dict : PyVal) (tz : String) :
    Except String (PyDateTime × PyDateTime) :=
  match date_dict.getD "start" PyVal.none with
  | PyVal.none => Except.error "start date is missing"
  | PyVal.str start_str =>
    match startParse start_str with
    | Option.none => Except.error "Invalid isoformat string"
    | some start_dt =>
      if (date_dict.getD "end" PyVal.none).truthy then
        match date_dict.getD "end" PyVal.none with
        | PyVal.str end_str =>
          match endParse end_str with
          | Option.none => Except.error "Invalid isoformat string"
          | some end_dt => Except.ok (start_dt, end_dt)
        | _ => Except.error "TypeError"
      else Except.ok (start_dt, start_dt.addOneDay)
  | _ => Except.error "TypeError"

/-- The body of the calendar event the driver builds (source lines
200-211): summary, start and end instants with the configured timezone
label, and a fixed-format description embedding the record id. -/
structure EventBody where
  summary : String
  startDateTime : String
  startTimeZone : String
  endDateTime : String
  endTimeZone : String
  description : String
deriving DecidableEq

/-- The property patch of the create-path write-back (source lines
228-244): the rich-text content written into the GCal Event ID property
and the start value written into the Last Synced date property. -/
structure NotionPatch where
  gcalEventIdContent : PyVal
  lastSyncedStart : String

/-- One attempted remote call of the driver, in source order: the domain
page lookup, an event insert, an event update, or the write-back patch of
the source task page. -/
inductive SyncCall where
  | retrievePage (pageRef : PyVal)
  | insertEvent (calendarId : String) (body : EventBody)
  | updateEvent (calendarId : String) (eventId : String) (body : EventBody)
  | updatePage (pageRef : PyVal) (patch : NotionPatch)

/-- A call against the remote calendar service (create or update). -/
def SyncCall.isCalendarCall : SyncCall → Bool
  | .insertEvent _ _ => true
  | .updateEvent _ _ _ => true
  | _ => false

/-- An event create call. -/
def SyncCall.isInsertEvent : SyncCall → Bool
  | .insertEvent _ _ => true
  | _ => false

/-- An event update call. -/
def SyncCall.isUpdateEvent : SyncCall → Bool
  | .updateEvent _ _ _ => true
  | _ => false

/-- A write-back patch of the source task record. -/
def SyncCall.isWriteBack : SyncCall → Bool
  | .updatePage _ _ => true
  | _ => false

/-- The two remote collaborators as oracles.  Each fallible call returns
Except; an error value models the call raising an exception, carrying the
exception text. -/
structure SyncEnv where
  query : String → PyVal
  retrievePage : PyVal → Except String PyVal
  insertEvent : String → EventBody → Except String PyVal
  updateEvent : String → String → EventBody → Except String PyVal
  updatePage : PyVal → NotionPatch → Except String PyVal
  nowUtc : String

/-- The domain lookup step (source lines 179-189): when the relation id
is truthy, one retrieve call is attempted; a raised lookup or a page
whose Name-or-Title property is not title-typed leaves the domain name
unresolved. -/
def domainNameOf (env : SyncEnv) (domain_id : PyVal) : Option String :=
  if domain_id.truthy then
    match env.retrievePage domain_id with
    | Except.error _ => Option.none
    | Except.ok domain_page =>
      let dn_props := domain_page.getD "properties" (PyVal.dict [])
      let title_prop := pyOr (dn_props.getD "Name" PyVal.none) (dn_props.getD "Title" PyVal.none)
      if title_prop.truthy && (title_prop.getD "type" PyVal.none).isStr "title" then
        some (plainTextsJoined (title_prop.getD "title" (PyVal.list [])))
      else Option.none
  else Option.none

/-- The retrieve calls the domain lookup step attempts. -/
def lookupCallsOf (props : TaskProps) : List SyncCall :=
  if props.domain_id.truthy then [SyncCall.retrievePage props.domain_id] else []

/-- The calendar-id step (source lines 191-194): the mapping is read at
the resolved domain name, with the empty string substituted for an
unresolved name, and a missing or empty value means skip. -/
def calendarIdOf (cmap : List (String × String)) (domain_name : Option String) :
    Option String :=
  match cmap.lookup (domain_name.getD "") with
  | some cid => if cid = "" then Option.none else some cid
  | Option.none => Option.none

/-- The event body of source lines 200-211. -/
def mkEventBody (name tz : String) (start_dt end_dt : PyDateTime) (page : PyVal) : EventBody :=
  { summary := name
    startDateTime := start_dt.isoformat
    startTimeZone := tz
    endDateTime := end_dt.isoformat
    endTimeZone := tz
    description := "View in Notion: https://www.notion.so/" ++ (page.getD "id" PyVal.none).pyToStr }

/-- The upsert step inside the try block (source lines 212-244): with a
truthy event id one update call is attempted; otherwise one insert call
is attempted and, only when the insert returns, the write-back patch is
attempted.  The second component collects the exception texts the except
clause catches. -/
def upsertStep (env : SyncEnv) (calendar_id : String) (body : EventBody) (page_id : PyVal)
    (gcal_id : PyVal) : List SyncCall × List String :=
  if gcal_id.truthy then
    ([SyncCall.updateEvent calendar_id gcal_id.pyToStr body],
     match env.updateEvent calendar_id gcal_id.pyToStr body with
     | Except.error e => [e]
     | Except.ok _ => [])
  else
    match env.insertEvent calendar_id body with
    | Except.error e => ([SyncCall.insertEvent calendar_id body], [e])
    | Except.ok created =>
      let patch : NotionPatch := ⟨created.getD "id" PyVal.none, env.nowUtc⟩
      ([SyncCall.insertEvent calendar_id body, SyncCall.updatePage page_id patch],
       match env.updatePage page_id patch with
       | Except.error e => [e]
       | Except.ok _ => [])

/-- The printed error line of the except clause (source line 247). -/
def syncErrMsg (name exc : String) : String :=
  "Error syncing task \x27" ++ name ++ "\x27: " ++ exc

/-- One loop iteration of sync_notion_to_calendar (source lines 168-247)
for one page: extract, filter on status and due, resolve the domain, map
to a calendar, normalize the dates, then upsert and write back.  Returns
the attempted remote calls and the printed error lines. -/
def syncTask (env : SyncEnv) (cmap : List (String × String)) (tz : String) (page : PyVal) :
    List SyncCall × List String :=
  let props := _get_task_properties page
  if props.status.isStr "Completed" || props.due.isNone then ([], [])
  else
    match calendarIdOf cmap (domainNameOf env props.domain_id) with
    | Option.none => (lookupCallsOf props, [])
    | some calendar_id =>
      match _parse_notion_date props.due tz with
      | Except.error _ => (lookupCallsOf props, [])
      | Except.ok (start_dt, end_dt) =>
        let body := mkEventBody props.name tz start_dt end_dt page
        let step := upsertStep env calendar_id body (page.getD "id" PyVal.none) props.gcal_id
        (lookupCallsOf props ++ step.1, step.2.map (syncErrMsg props.name))

/-- The attempted remote calls of one task. -/
def syncTaskCalls (env : SyncEnv) (cmap : List (String × String)) (tz : String)
    (page : PyVal) : List SyncCall :=
  (syncTask env cmap tz page).1

/-- The printed error lines of one task. -/
def syncTaskErrors (env : SyncEnv) (cmap : List (String × String)) (tz : String)
    (page : PyVal) : List String :=
  (syncTask env cmap tz page).2

/-- The sequential pass over the fetched result list. -/
def syncPages (env : SyncEnv) (cmap : List (String × String)) (tz : String) :
    List PyVal → List SyncCall × List String
  | [] => ([], [])
  | p :: ps =>
    ((syncTask env cmap tz p).1 ++ (syncPages env cmap tz ps).1,
     (syncTask env cmap tz p).2 ++ (syncPages env cmap tz ps).2)

/-- sync_notion_to_calendar (source lines 164-247): query the database
once and process every page of the single result list. -/
def sync_notion_to_calendar (env : SyncEnv) (db_id : String)
    (cmap : List (String × String)) (tz : String) : List SyncCall × List String :=
  syncPages env cmap tz ((env.query db_id).getD "results" (PyVal.list [])).asList

/-- Replacement of the value of a key in an association list, appending
when absent (the task database applying a property patch). -/
def setEntries : List (String × PyVal) → String → PyVal → List (String × PyVal)
  | [], k, v => [(k, v)]
  | (k0, v0) :: es, k, v =>
    if k0 = k then (k, v) :: es else (k0, v0) :: setEntries es k v

/-- Replacement of the value of a key of a dict PyVal; a non-dict is
returned unchanged. -/
def PyVal.setKey : PyVal → String → PyVal → PyVal
  | .dict es, k, v => .dict (setEntries es k v)
  | v0, _, _ => v0

/-- Modelled from the spec: the remote task database is not part of
src/, so the effect of the write-back patch on the stored task record is
modelled from the data-model section of the specification: the patched
GCal Event ID property becomes a rich-text property whose single part
carries the written content as its readable text, and Last Synced becomes
a date property with the written start value. -/
def applyPatchToPage (page : PyVal) (patch : NotionPatch) : PyVal :=
  let props := page.getD "properties" (PyVal.dict [])
  let props1 := props.setKey "GCal Event ID"
    (PyVal.dict [("type", PyVal.str "rich_text"),
      ("rich_text", PyVal.list [PyVal.dict [("plain_text", patch.gcalEventIdContent)]])])
  let props2 := props1.setKey "Last Synced"
    (PyVal.dict [("type", PyVal.str "date"),
      ("date", PyVal.dict [("start", PyVal.str patch.lastSyncedStart)])])
  page.setKey "properties" props2

/-- The source task record after the write-back calls of a trace have
been applied by the task database. -/
def applyTaskWriteBacks : PyVal → List SyncCall → PyVal
  | page, [] => page
  | page, SyncCall.updatePage _ patch :: cs => applyTaskWriteBacks (applyPatchToPage page patch) cs
  | page, SyncCall.retrievePage _ :: cs => applyTaskWriteBacks page cs
  | page, SyncCall.insertEvent _ _ :: cs => applyTaskWriteBacks page cs
  | page, SyncCall.updateEvent _ _ _ :: cs => applyTaskWriteBacks page cs

/-- The raw property value stored under a key of the page property bag. -/
def pagePropOf (page : PyVal) (k : String) : PyVal :=
  (page.getD "properties" (PyVal.dict [])).getD k PyVal.none

/-- A populated property carrying the rich-text type tag. -/
def isRichTextTypedProp (v : PyVal) : Bool :=
  v.truthy && (v.getD "type" PyVal.none).isStr "rich_text"

/-- The Task Extractor name rule as the specification words it: the first
populated title-typed property among the accepted name keys, with its
text parts concatenated, and the default Untitled when no such property
exists. -/
def specTaskName (page : PyVal) : String :=
  let props := page.getD "properties" (PyVal.dict [])
  match List.find?
      (fun k => (props.getD k PyVal.none).truthy
        && ((props.getD k PyVal.none).getD "type" PyVal.none).isStr "title")
      ["Name", "Title"] with
  | some k => plainTextsJoined ((props.getD k PyVal.none).getD "title" (PyVal.list []))
  | Option.none => "Untitled"

/-- The amended name rule of claim C9: the name comes from the first
populated property among the accepted name keys; when that property is
title-typed its text parts are concatenated, otherwise the default
Untitled is used. -/
def amendedTaskName (page : PyVal) : String :=
  let props := page.getD "properties" (PyVal.dict [])
  match List.find? (fun k => (props.getD k PyVal.none).truthy) ["Name", "Title"] with
  | some k =>
    if ((props.getD k PyVal.none).getD "type" PyVal.none).isStr "title" then
      plainTextsJoined ((props.getD k PyVal.none).getD "title" (PyVal.list []))
    else "Untitled"
  | Option.none => "Untitled"

/-- A populated title-typed property with one text part. -/
def titleProp (s : String) : PyVal :=
  PyVal.dict [("type", PyVal.str "title"),
    ("title", PyVal.list [PyVal.dict [("plain_text", PyVal.str s)]])]

/-- A date-typed due property with a date-only start and no end. -/
def dueDateProp : PyVal :=
  PyVal.dict [("type", PyVal.str "date"),
    ("date", PyVal.dict [("start", PyVal.str "2024-05-01")])]

/-- A relation-typed domain property pointing at one page. -/
def domainRelProp (pid : String) : PyVal :=
  PyVal.dict [("type", PyVal.str "relation"),
    ("relation", PyVal.list [PyVal.dict [("id", PyVal.str pid)]])]

/-- A rich-text-typed event-id property with one text part. -/
def gcalIdProp (s : String) : PyVal :=
  PyVal.dict [("type", PyVal.str "rich_text"),
    ("rich_text", PyVal.list [PyVal.dict [("plain_text", PyVal.str s)]])]

/-- Create-path fixture: a task with a due date and a mapped domain and
no stored event id. -/
def pageW : PyVal :=
  PyVal.dict [("id", PyVal.str "p1"),
    ("properties", PyVal.dict
      [("Name", titleProp "Task A"),
       ("Due Date", dueDateProp),
       ("Domain", domainRelProp "dom1")])]

/-- Update-path fixture: the same task with a stored event id. -/
def pageU : PyVal :=
  PyVal.dict [("id", PyVal.str "p1"),
    ("properties", PyVal.dict
      [("Name", titleProp "Task A"),
       ("Due Date", dueDateProp),
       ("Domain", domainRelProp "dom1"),
       ("GCal Event ID", gcalIdProp "evt9")])]

/-- Fixture for claim C2: the rich-text id property is present but its
part list is empty, so the extracted event id is the empty string. -/
def pageC2 : PyVal :=
  PyVal.dict [("id", PyVal.str "p1"),
    ("properties", PyVal.dict
      [("Name", titleProp "Task A"),
       ("Due Date", dueDateProp),
       ("Domain", domainRelProp "dom1"),
       ("GCal Event ID", PyVal.dict [("type", PyVal.str "rich_text"),
          ("rich_text", PyVal.list [])])])]

/-- Completed-task fixture for claim C6. -/
def pageDone : PyVal :=
  PyVal.dict [("id", PyVal.str "p2"),
    ("properties", PyVal.dict
      [("Name", titleProp "Done task"),
       ("Due Date", dueDateProp),
       ("Status", PyVal.dict [("type", PyVal.str "status"),
          ("status", PyVal.dict [("name", PyVal.str "Completed")])]),
       ("Domain", domainRelProp "dom1")])]

/-- Fixture for claim C7: a task with a due date and no domain relation. -/
def pageC7 : PyVal :=
  PyVal.dict [("id", PyVal.str "p7"),
    ("properties", PyVal.dict
      [("Name", titleProp "Orphan"),
       ("Due Date", dueDateProp)])]

/-- Fixture for claim C9: a populated non-title Name property masks a
populated title-typed Title property. -/
def pageC9 : PyVal :=
  PyVal.dict [("id", PyVal.str "p9"),
    ("properties", PyVal.dict
      [("Name", PyVal.dict [("type", PyVal.str "rich_text"),
          ("rich_text", PyVal.list [PyVal.dict [("plain_text", PyVal.str "oops")]])]),
       ("Title", titleProp "Real")])]

/-- The domain page the oracle returns for the fixtures. -/
def domainPageW : PyVal :=
  PyVal.dict [("properties", PyVal.dict [("Name", titleProp "Work")])]

/-- Oracle fixture in which every remote call succeeds. -/
def envW : SyncEnv :=
  { query := fun _ => PyVal.dict [("results", PyVal.list [pageW])]
    retrievePage := fun _ => Except.ok domainPageW
    insertEvent := fun _ _ => Except.ok (PyVal.dict [("id", PyVal.str "evt1")])
    updateEvent := fun _ _ _ => Except.ok PyVal.none
    updatePage := fun _ _ => Except.ok PyVal.none
    nowUtc := "2024-06-01T12:00:00" }

/-- Oracle fixture in which the event insert raises. -/
def envFail : SyncEnv :=
  { envW with insertEvent := fun _ _ => Except.error "boom" }

/-- The configured calendar mapping of the fixtures. -/
def cmapW : List (String × String) := [("Work", "calW")]

/-- A calendar mapping with an entry for the empty string, exercising the
unresolved-domain lookup of claim C7. -/
def cmapC7 : List (String × String) := [("", "calE")]

/-- The event body the driver builds for the create-path fixture. -/
def bodyW : EventBody :=
  mkEventBody "Task A" "UTC" ⟨2024, 5, 1, 0, 0, 0⟩ ⟨2024, 5, 2, 0, 0, 0⟩ pageW

/-- The write-back patch the driver builds for the create-path fixture. -/
def patchW : NotionPatch := ⟨PyVal.str "evt1", "2024-06-01T12:00:00"⟩

theorem splitOnAux_of_not_mem (c : Char) (l acc : List Char) (h : c ∉ l) :
    splitOnAux c l acc = [acc.reverse ++ l] := by
  induction l generalizing acc with
  | nil => simp [splitOnAux]
  | cons x xs ih =>
    rw [splitOnAux, if_neg (fun he => h (by rw [← he]; exact List.mem_cons_self x xs)),
      ih _ (fun hx => h (List.mem_cons_of_mem _ hx))]
    simp

theorem splitOnAux_append (c : Char) (l r acc : List Char) (h : c ∉ l) :
    splitOnAux c (l ++ c :: r) acc = (acc.reverse ++ l) :: splitOnAux c r [] := by
  induction l generalizing acc with
  | nil => simp [splitOnAux]
  | cons x xs ih =>
    rw [List.cons_append, splitOnAux, if_neg (fun he => h (by rw [← he]; exact List.mem_cons_self x xs)),
      ih _ (fun hx => h (List.mem_cons_of_mem _ hx))]
    simp

theorem splitOnChar_of_not_mem (c : Char) (l : List Char) (h : c ∉ l) :
    splitOnChar c l = [l] := by
  simpa using splitOnAux_of_not_mem c l [] h

theorem splitOnChar_append (c : Char) (l r : List Char) (h : c ∉ l) :
    splitOnChar c (l ++ c :: r) = l :: splitOnChar c r := by
  simpa [splitOnChar] using splitOnAux_append c l r [] h

theorem strData_append (a b : String) : (a ++ b).data = a.data ++ b.data := by
  cases a
  cases b
  rfl

theorem strContains_false_not_mem {s : String} {c : Char} (h : strContains s c = false) :
    c ∉ s.data :=
  of_decide_eq_false h

theorem fromisoChars_date_time (l tl : List Char) (hl : 'T' ∉ l) (htl : 'T' ∉ tl) :
    fromisoChars (l ++ 'T' :: tl)
      = (parseDatePart l).bind fun ymd =>
          (parseTimePart tl).map fun hms =>
            ⟨ymd.1, ymd.2.1, ymd.2.2, hms.1, hms.2.1, hms.2.2⟩ := by
  unfold fromisoChars
  rw [show splitOnChar 'T' (l ++ 'T' :: tl) = l :: splitOnChar 'T' tl from
        splitOnChar_append 'T' l tl hl,
      splitOnChar_of_not_mem 'T' tl htl]

theorem fromisoformat_append_midnight (s : String) (h : strContains s 'T' = false) :
    fromisoformat (s ++ "T00:00:00")
      = (parseDatePart s.data).map fun ymd => ⟨ymd.1, ymd.2.1, ymd.2.2, 0, 0, 0⟩ := by
  have hdata : (s ++ "T00:00:00").data = s.data ++ 'T' :: ("00:00:00" : String).data := by
    rw [strData_append]
  unfold fromisoformat
  rw [hdata, fromisoChars_date_time _ _ (strContains_false_not_mem h) (by decide)]
  have ht : parseTimePart ("00:00:00" : String).data = some (0, 0, 0) := by decide
  cases hp : parseDatePart s.data
  · simp [hp]
  · simp [hp, ht]

theorem fromisoformat_append_endday (s : String) (h : strContains s 'T' = false) :
    fromisoformat (s ++ "T23:59:59")
      = (parseDatePart s.data).map fun ymd => ⟨ymd.1, ymd.2.1, ymd.2.2, 23, 59, 59⟩ := by
  have hdata : (s ++ "T23:59:59").data = s.data ++ 'T' :: ("23:59:59" : String).data := by
    rw [strData_append]
  unfold fromisoformat
  rw [hdata, fromisoChars_date_time _ _ (strContains_false_not_mem h) (by decide)]
  have ht : parseTimePart ("23:59:59" : String).data = some (23, 59, 59) := by decide
  cases hp : parseDatePart s.data
  · simp [hp]
  · simp [hp, ht]

theorem parseDatePart_valid {l : List Char} {y m d : Nat}
    (h : parseDatePart l = some (y, m, d)) :
    1 ≤ m ∧ m ≤ 12 ∧ 1 ≤ d ∧ d ≤ daysInMonth (isLeap y) m := by
  unfold parseDatePart at h
  split at h
  · split at h
    · split at h
      · cases h
        rename_i hc
        simp only [Bool.and_eq_true, decide_eq_true_eq] at hc
        exact ⟨hc.1.1.1, hc.1.1.2, hc.1.2, hc.2⟩
      · cases h
    · cases h
  · cases h

theorem fromisoChars_valid {l : List Char} {dt : PyDateTime}
    (h : fromisoChars l = some dt) : dt.Valid := by
  unfold fromisoChars at h
  split at h
  · rcases Option.map_eq_some'.mp h with ⟨ymd, hp, he⟩
    rcases ymd with ⟨y, m, d⟩
    have hv := parseDatePart_valid hp
    rw [← he]
    exact hv
  · rcases Option.bind_eq_some.mp h with ⟨ymd, hp, hmap⟩
    rcases Option.map_eq_some'.mp hmap with ⟨hms, _, he⟩
    rcases ymd with ⟨y, m, d⟩
    have hv := parseDatePart_valid hp
    rw [← he]
    exact hv
  · cases h

theorem fromisoformat_valid {s : String} {dt : PyDateTime}
    (h : fromisoformat s = some dt) : dt.Valid :=
  fromisoChars_valid h

theorem startParse_valid {s : String} {st : PyDateTime}
    (h : startParse s = some st) : st.Valid := by
  unfold startParse at h
  split at h <;> exact fromisoformat_valid h

theorem daysInMonth_pos (b : Bool) (m : Nat) (h1 : 1 ≤ m) (h2 : m ≤ 12) :
    0 < daysInMonth b m := by
  interval_cases m <;> cases b <;> decide

theorem toSecs_addOneDay (dt : PyDateTime) (h : dt.Valid) :
    dt.addOneDay.toSecs = dt.toSecs + 86400 := by
  obtain ⟨Y, M, D, H, Mi, S⟩ := dt
  simp only [PyDateTime.Valid] at h
  obtain ⟨hm1, hm2, hd1, hd2⟩ := h
  by_cases h1 : D < daysInMonth (isLeap Y) M
  · simp only [PyDateTime.addOneDay, if_pos h1, PyDateTime.toSecs]
    omega
  · by_cases h2 : M < 12
    · have hstep : daysBeforeMonth (isLeap Y) (M + 1)
          = daysBeforeMonth (isLeap Y) M + daysInMonth (isLeap Y) M := rfl
      have hpos : 0 < daysInMonth (isLeap Y) M := daysInMonth_pos _ _ hm1 hm2
      simp only [PyDateTime.addOneDay, if_neg h1, if_pos h2, PyDateTime.toSecs]
      rw [hstep]
      omega
    · have hM : M = 12 := by omega
      subst hM
      have hdim : daysInMonth (isLeap Y) 12 = 31 := rfl
      have hD : D = 31 := by omega
      subst hD
      have hyear : daysBeforeYear (Y + 1) = daysBeforeYear Y + daysInYear Y := rfl
      have hsum : daysBeforeMonth (isLeap Y) 12 + 31 = daysInYear Y := by
        cases hb : isLeap Y <;> simp only [daysInYear, hb] <;> decide
      have hbm1 : daysBeforeMonth (isLeap (Y + 1)) 1 = 0 := rfl
      simp only [PyDateTime.addOneDay, if_neg h1, if_neg h2, PyDateTime.toSecs]
      rw [hyear, hbm1]
      omega

/-- The due-date dictionary of the specification example with a start and
no end. -/
def dd4 : PyVal := PyVal.dict [("start", PyVal.str "2024-05-01")]

/-- The due-date dictionary of the specification example with a date-only
start and a date-only end. -/
def dd5 : PyVal :=
  PyVal.dict [("start", PyVal.str "2024-05-01"), ("end", PyVal.str "2024-05-03")]

/-- The due-date dictionary of the specification example with datetime
start and end values. -/
def dd5t : PyVal :=
  PyVal.dict [("start", PyVal.str "2024-05-01T09:00:00"),
    ("end", PyVal.str "2024-05-01T10:00:00")]

/-- A due-date dictionary whose end date lies strictly before its start
date. -/
def dd10 : PyVal :=
  PyVal.dict [("start", PyVal.str "2024-05-03"), ("end", PyVal.str "2024-05-01")]

theorem calendarIdOf_eq_some {cmap : List (String × String)} {dn : Option String}
    {cid : String} (h : calendarIdOf cmap dn = some cid) :
    cmap.lookup (dn.getD "") = some cid ∧ cid ≠ "" := by
  unfold calendarIdOf at h
  split at h
  · split at h
    · cases h
    · cases h
      rename_i heq hne
      exact ⟨heq, hne⟩
  · cases h

/-- Claim C4: for every DateRange whose start is present and whose end is
absent, the Date Normalizer returns the interval from start to start plus
24 hours, and a date-only start is taken as midnight.  The hypothesis
that startParse succeeds expresses that the start value is a well-formed
date-or-datetime string, which the DateRange type of the specification
presumes. -/
theorem c4_end_absent_one_day_block (dd : PyVal) (tz s : String) (st : PyDateTime)
    (hstart : dd.getD "start" PyVal.none = PyVal.str s)
    (hend : (dd.getD "end" PyVal.none).truthy = false)
    (hparse : startParse s = some st) :
    _parse_notion_date dd tz = Except.ok (st, st.addOneDay)
      ∧ st.addOneDay.toSecs = st.toSecs + 86400
      ∧ (strContains s 'T' = false → st.hour = 0 ∧ st.minute = 0 ∧ st.second = 0) := by
  refine ⟨?_, toSecs_addOneDay st (startParse_valid hparse), ?_⟩
  · simp [_parse_notion_date, hstart, hparse, hend]
  · intro hT
    unfold startParse at hparse
    rw [if_neg (by simp [hT]), fromisoformat_append_midnight s hT] at hparse
    rcases Option.map_eq_some'.mp hparse with ⟨ymd, _, he⟩
    rw [← he]
    exact ⟨rfl, rfl, rfl⟩

/-- Witness for claim C4 at the example of the specification: start
2024-05-01 and no end yield the 24-hour block from 2024-05-01T00:00:00 to
2024-05-02T00:00:00. -/
theorem c4_end_absent_one_day_block_witness :
    (dd4.getD "start" PyVal.none = PyVal.str "2024-05-01"
      ∧ (dd4.getD "end" PyVal.none).truthy = false
      ∧ startParse "2024-05-01" = some ⟨2024, 5, 1, 0, 0, 0⟩)
    ∧ (_parse_notion_date dd4 "America/New_York"
          = Except.ok (⟨2024, 5, 1, 0, 0, 0⟩, PyDateTime.addOneDay ⟨2024, 5, 1, 0, 0, 0⟩)
        ∧ (PyDateTime.addOneDay ⟨2024, 5, 1, 0, 0, 0⟩).toSecs
            = PyDateTime.toSecs ⟨2024, 5, 1, 0, 0, 0⟩ + 86400
        ∧ (strContains "2024-05-01" 'T' = false
            → (⟨2024, 5, 1, 0, 0, 0⟩ : PyDateTime).hour = 0
              ∧ (⟨2024, 5, 1, 0, 0, 0⟩ : PyDateTime).minute = 0
              ∧ (⟨2024, 5, 1, 0, 0, 0⟩ : PyDateTime).second = 0))
    ∧ PyDateTime.isoformat ⟨2024, 5, 1, 0, 0, 0⟩ = "2024-05-01T00:00:00"
    ∧ PyDateTime.isoformat (PyDateTime.addOneDay ⟨2024, 5, 1, 0, 0, 0⟩)
        = "2024-05-02T00:00:00" :=
  ⟨⟨rfl, rfl, rfl⟩,
   c4_end_absent_one_day_block dd4 "America/New_York" "2024-05-01" ⟨2024, 5, 1, 0, 0, 0⟩
     rfl rfl rfl,
   rfl, rfl⟩

/-- Claim C5: an end with no time component becomes 23:59:59 local time
on that end date, and an end with a time component is used verbatim. -/
theorem c5_end_of_day_or_verbatim (dd : PyVal) (tz s e : String) (st : PyDateTime)
    (hstart : dd.getD "start" PyVal.none = PyVal.str s)
    (hend : dd.getD "end" PyVal.none = PyVal.str e)
    (hne : e ≠ "")
    (hparse : startParse s = some st) :
    (strContains e 'T' = false → ∀ y m d : Nat, parseDatePart e.data = some (y, m, d) →
        _parse_notion_date dd tz = Except.ok (st, ⟨y, m, d, 23, 59, 59⟩))
    ∧ (strContains e 'T' = true → ∀ ed : PyDateTime, fromisoformat e = some ed →
        _parse_notion_date dd tz = Except.ok (st, ed)) := by
  have htruthy : (PyVal.str e).truthy = true := by
    simp [PyVal.truthy, hne]
  constructor
  · intro hT y m d hpd
    have hep : endParse e = some ⟨y, m, d, 23, 59, 59⟩ := by
      unfold endParse
      rw [if_neg (by simp [hT]), fromisoformat_append_endday e hT, hpd]
      rfl
    simp [_parse_notion_date, hstart, hparse, hend, htruthy, hep]
  · intro hT ed hiso
    have hep : endParse e = some ed := by
      unfold endParse
      rw [if_pos hT]
      exact hiso
    simp [_parse_notion_date, hstart, hparse, hend, htruthy, hep]

/-- Witness for claim C5 at the two examples of the specification: a
date-only end 2024-05-03 becomes 2024-05-03T23:59:59, and the datetime
range 09:00:00 to 10:00:00 passes through verbatim. -/
theorem c5_end_of_day_or_verbatim_witness :
    (dd5.getD "end" PyVal.none = PyVal.str "2024-05-03"
      ∧ strContains "2024-05-03" 'T' = false
      ∧ parseDatePart ("2024-05-03" : String).data = some (2024, 5, 3)
      ∧ _parse_notion_date dd5 "America/New_York"
          = Except.ok (⟨2024, 5, 1, 0, 0, 0⟩, ⟨2024, 5, 3, 23, 59, 59⟩))
    ∧ (dd5t.getD "end" PyVal.none = PyVal.str "2024-05-01T10:00:00"
      ∧ strContains "2024-05-01T10:00:00" 'T' = true
      ∧ fromisoformat "2024-05-01T10:00:00" = some ⟨2024, 5, 1, 10, 0, 0⟩
      ∧ _parse_notion_date dd5t "America/New_York"
          = Except.ok (⟨2024, 5, 1, 9, 0, 0⟩, ⟨2024, 5, 1, 10, 0, 0⟩)) :=
  ⟨⟨rfl, rfl, by decide,
    (c5_end_of_day_or_verbatim dd5 "America/New_York" "2024-05-01" "2024-05-03"
        ⟨2024, 5, 1, 0, 0, 0⟩ rfl rfl (by decide) rfl).1 rfl 2024 5 3 (by decide)⟩,
   ⟨rfl, rfl, by decide,
    (c5_end_of_day_or_verbatim dd5t "America/New_York" "2024-05-01T09:00:00"
        "2024-05-01T10:00:00" ⟨2024, 5, 1, 9, 0, 0⟩ rfl rfl (by decide) rfl).2 rfl
      ⟨2024, 5, 1, 10, 0, 0⟩ (by decide)⟩⟩

/-- Claim C10: the Date Normalizer enforces no ordering between start and
end: with start 2024-05-03 and end 2024-05-01 it succeeds and returns an
interval whose end instant lies strictly before its start instant. -/
theorem c10_no_interval_ordering :
    _parse_notion_date dd10 "America/New_York"
        = Except.ok (⟨2024, 5, 3, 0, 0, 0⟩, ⟨2024, 5, 1, 23, 59, 59⟩)
      ∧ PyDateTime.toSecs ⟨2024, 5, 1, 23, 59, 59⟩ < PyDateTime.toSecs ⟨2024, 5, 3, 0, 0, 0⟩ :=
  ⟨rfl, by simp only [PyDateTime.toSecs]; omega⟩

/-- Claim C9 counterexample: on a record whose Name property is populated
but rich-text-typed while its Title property is a populated title-typed
property reading Real, the specification name rule yields Real but the
extractor yields Untitled, so the claim fails as stated. -/
theorem c9_counterexample :
    specTaskName pageC9 = "Real"
      ∧ (_get_task_properties pageC9).name = "Untitled"
      ∧ (_get_task_properties pageC9).name ≠ specTaskName pageC9 :=
  ⟨rfl, rfl, by decide⟩

/-- Claim C9 amended: the extractor takes the first populated property
among the accepted name keys and uses its concatenated text parts when it
is title-typed, with the default Untitled otherwise; a populated
non-title first alias masks a later title-typed alias. -/
theorem c9_amended_name_rule (page : PyVal) :
    (_get_task_properties page).name = amendedTaskName page := by
  unfold _get_task_properties amendedTaskName
  by_cases hA : ((page.getD "properties" (PyVal.dict [])).getD "Name" PyVal.none).truthy
  · simp [pyOr, hA]
  · by_cases hB : ((page.getD "properties" (PyVal.dict [])).getD "Title" PyVal.none).truthy
    · simp [pyOr, hA, hB]
    · simp [pyOr, hA, hB]

theorem mem_lookupCallsOf {props : TaskProps} {c : SyncCall} (h : c ∈ lookupCallsOf props) :
    c = SyncCall.retrievePage props.domain_id := by
  unfold lookupCallsOf at h
  split at h
  · simpa using h
  · simp at h

theorem lookupCallsOf_any_eq_false (props : TaskProps) (p : SyncCall → Bool)
    (hp : ∀ x, p (SyncCall.retrievePage x) = false) :
    (lookupCallsOf props).any p = false := by
  unfold lookupCallsOf
  split <;> simp [hp]

/-- Claim C1: a remote calendar upsert or write-back is attempted for a
task only when its due-date range normalized successfully and the driver
resolved a non-empty calendar id present in the mapping; a task failing
either condition contributes no calendar call and no write-back. -/
theorem c1_upsert_only_if_normalized_and_mapped (env : SyncEnv)
    (cmap : List (String × String)) (tz : String) (page : PyVal) (c : SyncCall)
    (hc : c ∈ syncTaskCalls env cmap tz page)
    (hk : (c.isCalendarCall || c.isWriteBack) = true) :
    (∃ st en, _parse_notion_date (_get_task_properties page).due tz = Except.ok (st, en))
      ∧ ∃ cid,
          cmap.lookup ((domainNameOf env (_get_task_properties page).domain_id).getD "")
              = some cid
            ∧ cid ≠ "" := by
  cases hskip : ((_get_task_properties page).status.isStr "Completed"
      || (_get_task_properties page).due.isNone) with
  | true =>
    exfalso
    have hcalls : syncTaskCalls env cmap tz page = [] := by
      simp [syncTaskCalls, syncTask, hskip]
    rw [hcalls] at hc
    simp at hc
  | false =>
    cases hcid : calendarIdOf cmap (domainNameOf env (_get_task_properties page).domain_id) with
    | none =>
      exfalso
      have hcalls : syncTaskCalls env cmap tz page = lookupCallsOf (_get_task_properties page) := by
        simp [syncTaskCalls, syncTask, hskip, hcid]
      rw [hcalls] at hc
      have hr := mem_lookupCallsOf hc
      subst hr
      simp [SyncCall.isCalendarCall, SyncCall.isWriteBack] at hk
    | some cid =>
      cases hdate : _parse_notion_date (_get_task_properties page).due tz with
      | error e =>
        exfalso
        have hcalls : syncTaskCalls env cmap tz page
            = lookupCallsOf (_get_task_properties page) := by
          simp [syncTaskCalls, syncTask, hskip, hcid, hdate]
        rw [hcalls] at hc
        have hr := mem_lookupCallsOf hc
        subst hr
        simp [SyncCall.isCalendarCall, SyncCall.isWriteBack] at hk
      | ok pr =>
        obtain ⟨st, en⟩ := pr
        rcases calendarIdOf_eq_some hcid with ⟨hlk, hne⟩
        exact ⟨⟨st, en, rfl⟩, cid, hlk, hne⟩

/-- Witness for claim C1: on the create-path fixture the insert call is
in the trace, and the theorem yields the normalized interval and the
mapped calendar id. -/
theorem c1_upsert_only_if_normalized_and_mapped_witness :
    SyncCall.insertEvent "calW" bodyW ∈ syncTaskCalls envW cmapW "UTC" pageW
      ∧ ((∃ st en, _parse_notion_date (_get_task_properties pageW).due "UTC"
            = Except.ok (st, en))
        ∧ ∃ cid,
            cmapW.lookup ((domainNameOf envW (_get_task_properties pageW).domain_id).getD "")
                = some cid
              ∧ cid ≠ "") := by
  have hcalls : syncTaskCalls envW cmapW "UTC" pageW
      = [SyncCall.retrievePage (PyVal.str "dom1"), SyncCall.insertEvent "calW" bodyW,
         SyncCall.updatePage (PyVal.str "p1") patchW] := rfl
  have hm : SyncCall.insertEvent "calW" bodyW ∈ syncTaskCalls envW cmapW "UTC" pageW := by
    rw [hcalls]
    exact List.Mem.tail _ (List.Mem.head _)
  exact ⟨hm, c1_upsert_only_if_normalized_and_mapped envW cmapW "UTC" pageW _ hm rfl⟩

/-- Claim C6: a task whose extracted status is the literal Completed or
whose due field is null contributes no remote calendar call. -/
theorem c6_completed_or_no_due_no_calendar_call (env : SyncEnv)
    (cmap : List (String × String)) (tz : String) (page : PyVal)
    (h : (_get_task_properties page).status.isStr "Completed" = true
          ∨ (_get_task_properties page).due = PyVal.none) :
    ∀ c ∈ syncTaskCalls env cmap tz page, c.isCalendarCall = false := by
  have hskip : ((_get_task_properties page).status.isStr "Completed"
      || (_get_task_properties page).due.isNone) = true := by
    rcases h with h | h
    · simp [h]
    · simp [h, PyVal.isNone]
  intro c hc
  have hcalls : syncTaskCalls env cmap tz page = [] := by
    simp [syncTaskCalls, syncTask, hskip]
  rw [hcalls] at hc
  simp at hc

/-- Witness for claim C6: the completed fixture task produces no calendar
call. -/
theorem c6_completed_or_no_due_no_calendar_call_witness :
    (_get_task_properties pageDone).status.isStr "Completed" = true
      ∧ ∀ c ∈ syncTaskCalls envW cmapW "UTC" pageDone, c.isCalendarCall = false :=
  ⟨rfl, c6_completed_or_no_due_no_calendar_call envW cmapW "UTC" pageDone (Or.inl rfl)⟩

/-- Claim C7 counterexample: with a calendar mapping containing an entry
for the empty string, a task whose domain reference is null is synced
anyway, because the driver substitutes the empty string for an unresolved
domain name before the mapping lookup; so the claim as stated fails. -/
theorem c7_counterexample :
    domainNameOf envW (_get_task_properties pageC7).domain_id = Option.none
      ∧ (syncTaskCalls envW cmapC7 "UTC" pageC7).any SyncCall.isCalendarCall = true :=
  ⟨rfl, rfl⟩

/-- Claim C7 amended: a task whose domain name does not resolve or whose
resolved domain name is absent from the mapping contributes no remote
calendar call, provided the mapping holds no non-empty calendar id under
the empty-string key (the driver looks up the empty string when the
domain name is unresolved). -/
theorem c7_unmapped_domain_no_calendar_call (env : SyncEnv)
    (cmap : List (String × String)) (tz : String) (page : PyVal)
    (hE : cmap.lookup "" = Option.none ∨ cmap.lookup "" = some "")
    (hD : domainNameOf env (_get_task_properties page).domain_id = Option.none
          ∨ ∃ s, domainNameOf env (_get_task_properties page).domain_id = some s
              ∧ cmap.lookup s = Option.none) :
    ∀ c ∈ syncTaskCalls env cmap tz page, c.isCalendarCall = false := by
  have hcid : calendarIdOf cmap (domainNameOf env (_get_task_properties page).domain_id)
      = Option.none := by
    unfold calendarIdOf
    rcases hD with hD | ⟨s, hD, hlk⟩
    · rw [hD]
      rcases hE with hE | hE
      · simp [hE]
      · simp [hE]
    · rw [hD]
      simp [hlk]
  intro c hc
  cases hskip : ((_get_task_properties page).status.isStr "Completed"
      || (_get_task_properties page).due.isNone) with
  | true =>
    have hcalls : syncTaskCalls env cmap tz page = [] := by
      simp [syncTaskCalls, syncTask, hskip]
    rw [hcalls] at hc
    simp at hc
  | false =>
    have hcalls : syncTaskCalls env cmap tz page = lookupCallsOf (_get_task_properties page) := by
      simp [syncTaskCalls, syncTask, hskip, hcid]
    rw [hcalls] at hc
    have hr := mem_lookupCallsOf hc
    subst hr
    rfl

/-- Witness for the amended claim C7: the fixture mapping has no
empty-string entry and the orphan task resolves no domain name, so no
calendar call is made for it. -/
theorem c7_unmapped_domain_no_calendar_call_witness :
    cmapW.lookup "" = Option.none
      ∧ domainNameOf envW (_get_task_properties pageC7).domain_id = Option.none
      ∧ ∀ c ∈ syncTaskCalls envW cmapW "UTC" pageC7, c.isCalendarCall = false :=
  ⟨rfl, rfl,
   c7_unmapped_domain_no_calendar_call envW cmapW "UTC" pageC7 (Or.inl rfl) (Or.inl rfl)⟩

theorem applyTaskWriteBacks_eq_self : ∀ (calls : List SyncCall) (page : PyVal),
    (∀ pid patch, SyncCall.updatePage pid patch ∉ calls) →
    applyTaskWriteBacks page calls = page := by
  intro calls
  induction calls with
  | nil => intro page _; rfl
  | cons c cs ih =>
    intro page h
    cases c with
    | updatePage pid patch => exact absurd (List.Mem.head _) (h pid patch)
    | retrievePage x => exact ih page fun pid patch hm => h pid patch (List.Mem.tail _ hm)
    | insertEvent a b => exact ih page fun pid patch hm => h pid patch (List.Mem.tail _ hm)
    | updateEvent a b e => exact ih page fun pid patch hm => h pid patch (List.Mem.tail _ hm)

/-- Claim C2 counterexample: on a record whose rich-text id property is
present with an empty part list, the extracted external event id is the
empty string, which is not null, yet the driver issues a create call and
no update call; so the claim as stated (present implies update) fails. -/
theorem c2_counterexample :
    (_get_task_properties pageC2).gcal_id.isNone = false
      ∧ (_get_task_properties pageC2).gcal_id = PyVal.str ""
      ∧ (syncTaskCalls envW cmapW "UTC" pageC2).any SyncCall.isUpdateEvent = false
      ∧ (syncTaskCalls envW cmapW "UTC" pageC2).any SyncCall.isInsertEvent = true :=
  ⟨rfl, rfl, rfl, rfl⟩

/-- Claim C2 amended: for every non-skipped task, a present and non-empty
external event id leads to one update call addressed to that id and no
create call; a null or empty id leads to one create call and no update
call; and the extractor yields null when no rich-text-typed id property
is found among the accepted keys (an empty rich-text property extracts as
the empty string, which takes the create path). -/
theorem c2_upsert_dispatch (env : SyncEnv) (cmap : List (String × String)) (tz : String)
    (page : PyVal) (cid : String) (st en : PyDateTime)
    (hskip : ((_get_task_properties page).status.isStr "Completed"
        || (_get_task_properties page).due.isNone) = false)
    (hcid : calendarIdOf cmap (domainNameOf env (_get_task_properties page).domain_id)
        = some cid)
    (hdate : _parse_notion_date (_get_task_properties page).due tz = Except.ok (st, en)) :
    ((_get_task_properties page).gcal_id.truthy = true →
        SyncCall.updateEvent cid (_get_task_properties page).gcal_id.pyToStr
            (mkEventBody (_get_task_properties page).name tz st en page)
          ∈ syncTaskCalls env cmap tz page
        ∧ (syncTaskCalls env cmap tz page).any SyncCall.isInsertEvent = false)
      ∧ ((_get_task_properties page).gcal_id.truthy = false →
        SyncCall.insertEvent cid (mkEventBody (_get_task_properties page).name tz st en page)
          ∈ syncTaskCalls env cmap tz page
        ∧ (syncTaskCalls env cmap tz page).any SyncCall.isUpdateEvent = false)
      ∧ (isRichTextTypedProp (pagePropOf page "GCal Event ID") = false →
        isRichTextTypedProp (pagePropOf page "Google Calendar Event ID") = false →
        (_get_task_properties page).gcal_id = PyVal.none) := by
  refine ⟨?_, ?_, ?_⟩
  · intro hg
    have hcalls : syncTaskCalls env cmap tz page
        = lookupCallsOf (_get_task_properties page)
          ++ [SyncCall.updateEvent cid (_get_task_properties page).gcal_id.pyToStr
               (mkEventBody (_get_task_properties page).name tz st en page)] := by
      simp [syncTaskCalls, syncTask, hskip, hcid, hdate, upsertStep, hg]
    constructor
    · rw [hcalls]
      exact List.mem_append_right _ (List.Mem.head _)
    · rw [hcalls, List.any_append, lookupCallsOf_any_eq_false _ _ (fun _ => rfl)]
      rfl
  · intro hg
    cases hins : env.insertEvent cid (mkEventBody (_get_task_properties page).name tz st en page) with
    | error e =>
      have hcalls : syncTaskCalls env cmap tz page
          = lookupCallsOf (_get_task_properties page)
            ++ [SyncCall.insertEvent cid
                 (mkEventBody (_get_task_properties page).name tz st en page)] := by
        simp [syncTaskCalls, syncTask, hskip, hcid, hdate, upsertStep, hg, hins]
      constructor
      · rw [hcalls]
        exact List.mem_append_right _ (List.Mem.head _)
      · rw [hcalls, List.any_append, lookupCallsOf_any_eq_false _ _ (fun _ => rfl)]
        rfl
    | ok created =>
      have hcalls : syncTaskCalls env cmap tz page
          = lookupCallsOf (_get_task_properties page)
            ++ [SyncCall.insertEvent cid
                 (mkEventBody (_get_task_properties page).name tz st en page),
                SyncCall.updatePage (page.getD "id" PyVal.none)
                 ⟨created.getD "id" PyVal.none, env.nowUtc⟩] := by
        simp [syncTaskCalls, syncTask, hskip, hcid, hdate, upsertStep, hg, hins]
      constructor
      · rw [hcalls]
        exact List.mem_append_right _ (List.Mem.head _)
      · rw [hcalls, List.any_append, lookupCallsOf_any_eq_false _ _ (fun _ => rfl)]
        rfl
  · intro h1 h2
    have h1' := h1
    have h2' := h2
    unfold isRichTextTypedProp pagePropOf at h1' h2'
    have hcond : ((pyOr ((page.getD "properties" (PyVal.dict [])).getD "GCal Event ID" PyVal.none)
          ((page.getD "properties" (PyVal.dict [])).getD "Google Calendar Event ID"
            PyVal.none)).truthy
        && ((pyOr ((page.getD "properties" (PyVal.dict [])).getD "GCal Event ID" PyVal.none)
          ((page.getD "properties" (PyVal.dict [])).getD "Google Calendar Event ID"
            PyVal.none)).getD "type" PyVal.none).isStr "rich_text") = false := by
      unfold pyOr
      split
      · exact h1'
      · exact h2'
    simp only [_get_task_properties]
    simp only [hcond]
    simp

/-- Witness for the amended claim C2 on the update-path fixture: the
stored id is non-empty, an update call addressed to it is issued, and no
create call is issued. -/
theorem c2_upsert_dispatch_witness :
    (_get_task_properties pageU).gcal_id.truthy = true
      ∧ SyncCall.updateEvent "calW" (_get_task_properties pageU).gcal_id.pyToStr
          (mkEventBody (_get_task_properties pageU).name "UTC"
            ⟨2024, 5, 1, 0, 0, 0⟩ ⟨2024, 5, 2, 0, 0, 0⟩ pageU)
          ∈ syncTaskCalls envW cmapW "UTC" pageU
      ∧ (syncTaskCalls envW cmapW "UTC" pageU).any SyncCall.isInsertEvent = false := by
  have h := (c2_upsert_dispatch envW cmapW "UTC" pageU "calW"
      ⟨2024, 5, 1, 0, 0, 0⟩ ⟨2024, 5, 2, 0, 0, 0⟩ rfl rfl rfl).1 rfl
  exact ⟨rfl, h.1, h.2⟩

/-- Claim C3: the source task is patched only on the create path after a
successful create (the patch carries the newly assigned event id and the
current timestamp); with a truthy stored event id no write-back happens,
the task record is unchanged, a second run over the unchanged record is
the same run, and it issues the update call whenever the first one did. -/
theorem c3_writeback_create_only (env : SyncEnv) (cmap : List (String × String))
    (tz : String) (page : PyVal) :
    (∀ pid patch, SyncCall.updatePage pid patch ∈ syncTaskCalls env cmap tz page →
        (_get_task_properties page).gcal_id.truthy = false
          ∧ ∃ cid st en created,
              calendarIdOf cmap (domainNameOf env (_get_task_properties page).domain_id)
                  = some cid
                ∧ _parse_notion_date (_get_task_properties page).due tz = Except.ok (st, en)
                ∧ env.insertEvent cid (mkEventBody (_get_task_properties page).name tz st en page)
                    = Except.ok created
                ∧ pid = page.getD "id" PyVal.none
                ∧ patch = ⟨created.getD "id" PyVal.none, env.nowUtc⟩
                ∧ SyncCall.insertEvent cid
                    (mkEventBody (_get_task_properties page).name tz st en page)
                    ∈ syncTaskCalls env cmap tz page)
      ∧ ((_get_task_properties page).gcal_id.truthy = true →
        (syncTaskCalls env cmap tz page).any SyncCall.isWriteBack = false
          ∧ applyTaskWriteBacks page (syncTaskCalls env cmap tz page) = page
          ∧ syncTaskCalls env cmap tz (applyTaskWriteBacks page (syncTaskCalls env cmap tz page))
              = syncTaskCalls env cmap tz page
          ∧ ∀ cid st en,
              calendarIdOf cmap (domainNameOf env (_get_task_properties page).domain_id)
                  = some cid →
              _parse_notion_date (_get_task_properties page).due tz = Except.ok (st, en) →
              ((_get_task_properties page).status.isStr "Completed"
                || (_get_task_properties page).due.isNone) = false →
              SyncCall.updateEvent cid (_get_task_properties page).gcal_id.pyToStr
                  (mkEventBody (_get_task_properties page).name tz st en page)
                ∈ syncTaskCalls env cmap tz page) := by
  have hnw : (_get_task_properties page).gcal_id.truthy = true →
      ∀ pid patch, SyncCall.updatePage pid patch ∉ syncTaskCalls env cmap tz page := by
    intro hg pid patch hm
    cases hskip : ((_get_task_properties page).status.isStr "Completed"
        || (_get_task_properties page).due.isNone) with
    | true =>
      have hcalls : syncTaskCalls env cmap tz page = [] := by
        simp [syncTaskCalls, syncTask, hskip]
      rw [hcalls] at hm
      simp at hm
    | false =>
      cases hcid : calendarIdOf cmap (domainNameOf env (_get_task_properties page).domain_id) with
      | none =>
        have hcalls : syncTaskCalls env cmap tz page
            = lookupCallsOf (_get_task_properties page) := by
          simp [syncTaskCalls, syncTask, hskip, hcid]
        rw [hcalls] at hm
        exact SyncCall.noConfusion (mem_lookupCallsOf hm)
      | some cid =>
        cases hdate : _parse_notion_date (_get_task_properties page).due tz with
        | error e =>
          have hcalls : syncTaskCalls env cmap tz page
              = lookupCallsOf (_get_task_properties page) := by
            simp [syncTaskCalls, syncTask, hskip, hcid, hdate]
          rw [hcalls] at hm
          exact SyncCall.noConfusion (mem_lookupCallsOf hm)
        | ok pr =>
          obtain ⟨st, en⟩ := pr
          have hcalls : syncTaskCalls env cmap tz page
              = lookupCallsOf (_get_task_properties page)
                ++ [SyncCall.updateEvent cid (_get_task_properties page).gcal_id.pyToStr
                     (mkEventBody (_get_task_properties page).name tz st en page)] := by
            simp [syncTaskCalls, syncTask, hskip, hcid, hdate, upsertStep, hg]
          rw [hcalls] at hm
          rcases List.mem_append.mp hm with hm | hm
          · exact SyncCall.noConfusion (mem_lookupCallsOf hm)
          · simp at hm
  constructor
  · intro pid patch hm
    cases hskip : ((_get_task_properties page).status.isStr "Completed"
        || (_get_task_properties page).due.isNone) with
    | true =>
      exfalso
      have hcalls : syncTaskCalls env cmap tz page = [] := by
        simp [syncTaskCalls, syncTask, hskip]
      rw [hcalls] at hm
      simp at hm
    | false =>
      cases hcid : calendarIdOf cmap (domainNameOf env (_get_task_properties page).domain_id) with
      | none =>
        exfalso
        have hcalls : syncTaskCalls env cmap tz page
            = lookupCallsOf (_get_task_properties page) := by
          simp [syncTaskCalls, syncTask, hskip, hcid]
        rw [hcalls] at hm
        exact SyncCall.noConfusion (mem_lookupCallsOf hm)
      | some cid =>
        cases hdate : _parse_notion_date (_get_task_properties page).due tz with
        | error e =>
          exfalso
          have hcalls : syncTaskCalls env cmap tz page
              = lookupCallsOf (_get_task_properties page) := by
            simp [syncTaskCalls, syncTask, hskip, hcid, hdate]
          rw [hcalls] at hm
          exact SyncCall.noConfusion (mem_lookupCallsOf hm)
        | ok pr =>
          obtain ⟨st, en⟩ := pr
          cases hg : (_get_task_properties page).gcal_id.truthy with
          | true =>
            exact absurd hm (hnw hg pid patch)
          | false =>
            cases hins : env.insertEvent cid
                (mkEventBody (_get_task_properties page).name tz st en page) with
            | error e =>
              exfalso
              have hcalls : syncTaskCalls env cmap tz page
                  = lookupCallsOf (_get_task_properties page)
                    ++ [SyncCall.insertEvent cid
                         (mkEventBody (_get_task_properties page).name tz st en page)] := by
                simp [syncTaskCalls, syncTask, hskip, hcid, hdate, upsertStep, hg, hins]
              rw [hcalls] at hm
              rcases List.mem_append.mp hm with hm | hm
              · exact SyncCall.noConfusion (mem_lookupCallsOf hm)
              · simp at hm
            | ok created =>
              have hcalls : syncTaskCalls env cmap tz page
                  = lookupCallsOf (_get_task_properties page)
                    ++ [SyncCall.insertEvent cid
                         (mkEventBody (_get_task_properties page).name tz st en page),
                        SyncCall.updatePage (page.getD "id" PyVal.none)
                         ⟨created.getD "id" PyVal.none, env.nowUtc⟩] := by
                simp [syncTaskCalls, syncTask, hskip, hcid, hdate, upsertStep, hg, hins]
              rw [hcalls] at hm
              rcases List.mem_append.mp hm with hm | hm
              · exact absurd (mem_lookupCallsOf hm) (fun h => SyncCall.noConfusion h)
              · have hmem : SyncCall.insertEvent cid
                    (mkEventBody (_get_task_properties page).name tz st en page)
                      ∈ syncTaskCalls env cmap tz page := by
                  rw [hcalls]
                  exact List.mem_append_right _ (List.Mem.head _)
                simp at hm
                exact ⟨rfl, cid, st, en, created, rfl, rfl, hins, hm.1, hm.2, hmem⟩
  · intro hg
    have hany : (syncTaskCalls env cmap tz page).any SyncCall.isWriteBack = false := by
      rw [Bool.eq_false_iff]
      intro hx
      rcases List.any_eq_true.mp hx with ⟨c, hcmem, hcw⟩
      cases c with
      | updatePage pid patch => exact hnw hg pid patch hcmem
      | retrievePage x => simp [SyncCall.isWriteBack] at hcw
      | insertEvent a b => simp [SyncCall.isWriteBack] at hcw
      | updateEvent a b e => simp [SyncCall.isWriteBack] at hcw
    have happly : applyTaskWriteBacks page (syncTaskCalls env cmap tz page) = page :=
      applyTaskWriteBacks_eq_self _ page (hnw hg)
    refine ⟨hany, happly, by rw [happly], ?_⟩
    intro cid st en hcid hdate hskip
    have hcalls : syncTaskCalls env cmap tz page
        = lookupCallsOf (_get_task_properties page)
          ++ [SyncCall.updateEvent cid (_get_task_properties page).gcal_id.pyToStr
               (mkEventBody (_get_task_properties page).name tz st en page)] := by
      simp [syncTaskCalls, syncTask, hskip, hcid, hdate, upsertStep, hg]
    rw [hcalls]
    exact List.mem_append_right _ (List.Mem.head _)

/-- Witness for claim C3 on the update-path fixture: the stored id is
truthy, no write-back call is issued, the record is unchanged, the second
run equals the first, and the update call is issued. -/
theorem c3_writeback_create_only_witness :
    (_get_task_properties pageU).gcal_id.truthy = true
      ∧ (syncTaskCalls envW cmapW "UTC" pageU).any SyncCall.isWriteBack = false
      ∧ applyTaskWriteBacks pageU (syncTaskCalls envW cmapW "UTC" pageU) = pageU
      ∧ syncTaskCalls envW cmapW "UTC"
          (applyTaskWriteBacks pageU (syncTaskCalls envW cmapW "UTC" pageU))
          = syncTaskCalls envW cmapW "UTC" pageU
      ∧ SyncCall.updateEvent "calW" (_get_task_properties pageU).gcal_id.pyToStr
          (mkEventBody (_get_task_properties pageU).name "UTC"
            ⟨2024, 5, 1, 0, 0, 0⟩ ⟨2024, 5, 2, 0, 0, 0⟩ pageU)
          ∈ syncTaskCalls envW cmapW "UTC" pageU := by
  have h := (c3_writeback_create_only envW cmapW "UTC" pageU).2 rfl
  exact ⟨rfl, h.1, h.2.1, h.2.2.1, h.2.2.2 "calW" ⟨2024, 5, 1, 0, 0, 0⟩ ⟨2024, 5, 2, 0, 0, 0⟩
    rfl rfl rfl⟩

theorem syncPages_fst (env : SyncEnv) (cmap : List (String × String)) (tz : String) :
    ∀ pages : List PyVal,
      (syncPages env cmap tz pages).1 = (pages.map (syncTaskCalls env cmap tz)).flatten := by
  intro pages
  induction pages with
  | nil => rfl
  | cons p ps ih => simp [syncPages, ih, syncTaskCalls]

theorem syncPages_snd (env : SyncEnv) (cmap : List (String × String)) (tz : String) :
    ∀ pages : List PyVal,
      (syncPages env cmap tz pages).2 = (pages.map (syncTaskErrors env cmap tz)).flatten := by
  intro pages
  induction pages with
  | nil => rfl
  | cons p ps ih => simp [syncPages, ih, syncTaskErrors]

/-- Claim C8: when the upsert or write-back of a task raises, the caught
error is reported in the output and every remaining task still
contributes its full trace; no exception of one task ends the run. -/
theorem c8_failure_isolated (env : SyncEnv) (cmap : List (String × String)) (tz : String)
    (page : PyVal) (rest : List PyVal)
    (herr : syncTaskErrors env cmap tz page ≠ []) :
    (syncPages env cmap tz (page :: rest)).2
        = syncTaskErrors env cmap tz page ++ (rest.map (syncTaskErrors env cmap tz)).flatten
      ∧ (syncPages env cmap tz (page :: rest)).1
        = syncTaskCalls env cmap tz page ++ (rest.map (syncTaskCalls env cmap tz)).flatten := by
  constructor
  · have h := syncPages_snd env cmap tz (page :: rest)
    simpa [syncTaskErrors] using h
  · have h := syncPages_fst env cmap tz (page :: rest)
    simpa [syncTaskCalls] using h

/-- Witness for claim C8: with the insert call raising on the first
fixture task, the error line is reported and the second task is still
fully processed. -/
theorem c8_failure_isolated_witness :
    syncTaskErrors envFail cmapW "UTC" pageW ≠ []
      ∧ ((syncPages envFail cmapW "UTC" (pageW :: [pageU])).2
          = syncTaskErrors envFail cmapW "UTC" pageW
            ++ ([pageU].map (syncTaskErrors envFail cmapW "UTC")).flatten
        ∧ (syncPages envFail cmapW "UTC" (pageW :: [pageU])).1
          = syncTaskCalls envFail cmapW "UTC" pageW
            ++ ([pageU].map (syncTaskCalls envFail cmapW "UTC")).flatten) := by
  have herr : syncTaskErrors envFail cmapW "UTC" pageW ≠ [] := by decide
  exact ⟨herr, c8_failure_isolated envFail cmapW "UTC" pageW [pageU] herr⟩

end NotionSync
